import Mathlib

/-!
Verification of the date-candidate extraction and precision-ranking engine of
`exfix.py` (class `DateExtractor`).  The Python source is shallowly embedded:

* `DT` models `datetime.datetime` at second precision (the engine never
  produces microseconds); `mkDT` models the `datetime(...)` constructor,
  returning `none` where Python raises `ValueError`.
* `is_valid_date` models `DateExtractor.is_valid_date`, with the ambient
  `datetime.now().year` passed explicitly as `current_year`.
* `spMatch`/`strptime` model CPython `_strptime` for the directives the
  source uses (`%Y %y %m %d %H %M %S %b` and literal separators): each
  directive is the exact alternation of CPython's `TimeRE`, tried in order
  with backtracking, a match needs no anchor at the end, and leftover input
  makes `strptime` fail ("unconverted data remains").
* `matchToks`/`finditer` model `re.finditer` for the fixed pattern catalogue
  `date_patterns`: greedy bounded digit groups with backtracking, character
  classes, and the `(?:^|[^\d])`/`(?:[^\d]|$)` guards of the bare-year
  pattern; matches are non-overlapping and scanned left to right.
* `filenameDispatch`/`pathDispatch` are the per-match bodies of
  `extract_filename_dates` and `extract_path_dates` (they differ in the
  source: the path version re-applies `is_valid_date` in every branch and
  uses a different bare-year window).
* The external `exiftool` call is out of scope; `extract_exif_dates` takes
  the field-name-to-raw-string mapping it would have produced.
* `get_best_from`/`get_best_date` model `get_best_date`: concatenate the
  three scanners' candidates, deduplicate by exact instant keeping the
  first-seen provenance, and sort stably by `(-score, instant)`.  Python's
  `list.sort` is replaced by a stable insertion sort `sortRank`; after
  deduplication all instants are distinct, so the comparator is a total
  order and any correct stable sort produces the same sequence.
-/

namespace Exfix

/-- ASCII digit test, `c ∈ '0'..'9'`. -/
def isDig (c : Char) : Bool := decide (48 ≤ c.toNat ∧ c.toNat ≤ 57)

/-- ASCII letter test, the regex class `[A-Za-z]`. -/
def isAlphaChar (c : Char) : Bool :=
  decide ((65 ≤ c.toNat ∧ c.toNat ≤ 90) ∨ (97 ≤ c.toNat ∧ c.toNat ≤ 122))

/-- Numeric value of an ASCII digit. -/
def dv (c : Char) : Nat := c.toNat - 48

/-- ASCII lowercasing, for the case-insensitive month-abbreviation match. -/
def lowerC (c : Char) : Char :=
  if 65 ≤ c.toNat ∧ c.toNat ≤ 90 then Char.ofNat (c.toNat + 32) else c

/-- Python `int(...)` on the strings that reach it here: regex digit groups
and possibly the empty slice `year_month[4:]`.  `none` models the
`ValueError` on a string with no digits. -/
def strToNat? (cs : List Char) : Option Nat :=
  if cs ≠ [] ∧ cs.all isDig then
    some (cs.foldl (fun a c => a * 10 + dv c) 0)
  else none

/-- A calendar instant at second precision (the engine never produces
microseconds), modelling `datetime.datetime`. -/
structure DT where
  year : Nat
  month : Nat
  day : Nat
  hour : Nat
  minute : Nat
  second : Nat
deriving DecidableEq, Repr

/-- Gregorian leap year, as `datetime` uses. -/
def isLeap (y : Nat) : Bool := decide (y % 4 = 0 ∧ (¬ y % 100 = 0 ∨ y % 400 = 0))

/-- Length of a month, as `datetime` uses. -/
def daysInMonth (y m : Nat) : Nat :=
  if m = 2 then (if isLeap y then 29 else 28)
  else if m = 4 ∨ m = 6 ∨ m = 9 ∨ m = 11 then 30
  else 31

/-- The `datetime(...)` constructor: `none` where Python raises
`ValueError` (year outside `MINYEAR..MAXYEAR`, bad month, day, or time). -/
def mkDT (y mo d h mi s : Nat) : Option DT :=
  if 1 ≤ y ∧ y ≤ 9999 ∧ 1 ≤ mo ∧ mo ≤ 12 ∧ 1 ≤ d ∧ d ≤ daysInMonth y mo
      ∧ h ≤ 23 ∧ mi ≤ 59 ∧ s ≤ 59 then
    some ⟨y, mo, d, h, mi, s⟩
  else none

/-- The sentinel placeholder dates of `DateExtractor.is_valid_date`. -/
def invalid_dates : List (Nat × Nat × Nat) :=
  [(1010, 1, 1), (1980, 1, 1), (1999, 1, 1), (2000, 1, 1), (1970, 1, 1)]

/-- `DateExtractor.is_valid_date`, with `datetime.now().year` made an
explicit argument `current_year`. -/
def is_valid_date (current_year : Nat) (dt : DT) : Bool :=
  if dt.year < 1970 ∨ current_year + 1 < dt.year then false
  else if invalid_dates.any
      (fun p => dt.year == p.1 && dt.month == p.2.1 && dt.day == p.2.2) then false
  else true

/-! ### `strptime` emulation -/

/-- One `strptime` format element: a literal character, a whitespace run
(CPython turns format whitespace into `\s+`), or a named directive. -/
inductive STok where
  | lit (c : Char)
  | ws
  | dY4
  | dY2
  | dM
  | dD
  | dH
  | dMin
  | dS
  | dB
deriving DecidableEq

/-- Whitespace characters of the regex class `\s` (ASCII). -/
def wsChars : List Char := [' ', '\t', '\n', '\r', '\x0b', '\x0c']

/-- Number of leading whitespace characters. -/
def leadWS : List Char → Nat
  | [] => 0
  | c :: cs => if wsChars.contains c then leadWS cs + 1 else 0

/-- The month-abbreviation alternation of `%b` on three input characters
(lowercased, as CPython compiles the alternation with `re.IGNORECASE`). -/
def monthNum3 (c1 c2 c3 : Char) : Option Nat :=
  if lowerC c1 = 'j' ∧ lowerC c2 = 'a' ∧ lowerC c3 = 'n' then some 1
  else if lowerC c1 = 'f' ∧ lowerC c2 = 'e' ∧ lowerC c3 = 'b' then some 2
  else if lowerC c1 = 'm' ∧ lowerC c2 = 'a' ∧ lowerC c3 = 'r' then some 3
  else if lowerC c1 = 'a' ∧ lowerC c2 = 'p' ∧ lowerC c3 = 'r' then some 4
  else if lowerC c1 = 'm' ∧ lowerC c2 = 'a' ∧ lowerC c3 = 'y' then some 5
  else if lowerC c1 = 'j' ∧ lowerC c2 = 'u' ∧ lowerC c3 = 'n' then some 6
  else if lowerC c1 = 'j' ∧ lowerC c2 = 'u' ∧ lowerC c3 = 'l' then some 7
  else if lowerC c1 = 'a' ∧ lowerC c2 = 'u' ∧ lowerC c3 = 'g' then some 8
  else if lowerC c1 = 's' ∧ lowerC c2 = 'e' ∧ lowerC c3 = 'p' then some 9
  else if lowerC c1 = 'o' ∧ lowerC c2 = 'c' ∧ lowerC c3 = 't' then some 10
  else if lowerC c1 = 'n' ∧ lowerC c2 = 'o' ∧ lowerC c3 = 'v' then some 11
  else if lowerC c1 = 'd' ∧ lowerC c2 = 'e' ∧ lowerC c3 = 'c' then some 12
  else none

/-- The alternatives of one `strptime` directive, in the order CPython's
`TimeRE` regex tries them; each entry is (captured value, remaining input).
`%d` is `3[01]|[12]\d|0[1-9]|[1-9]| [1-9]`, `%m` is `1[0-2]|0[1-9]|[1-9]`,
`%H` is `2[0-3]|[0-1]\d|\d`, `%M` is `[0-5]\d|\d`, `%S` is `6[0-1]|[0-5]\d|\d`,
`%y` is `\d\d`, `%Y` is `\d\d\d\d`, `%b` is the month-name alternation. -/
def dAlts : STok → List Char → List (Nat × List Char)
  | .dY4, cs =>
    match cs with
    | a :: b :: c :: d :: rest =>
      if isDig a && isDig b && isDig c && isDig d then
        [(((dv a * 10 + dv b) * 10 + dv c) * 10 + dv d, rest)]
      else []
    | _ => []
  | .dY2, cs =>
    match cs with
    | a :: b :: rest => if isDig a && isDig b then [(dv a * 10 + dv b, rest)] else []
    | _ => []
  | .dM, cs =>
    (match cs with
     | a :: b :: rest =>
       if a = '1' ∧ (b = '0' ∨ b = '1' ∨ b = '2') then [(10 + dv b, rest)] else []
     | _ => []) ++
    (match cs with
     | a :: b :: rest =>
       if a = '0' ∧ (isDig b ∧ b ≠ '0') then [(dv b, rest)] else []
     | _ => []) ++
    (match cs with
     | a :: rest => if isDig a ∧ a ≠ '0' then [(dv a, rest)] else []
     | _ => [])
  | .dD, cs =>
    (match cs with
     | a :: b :: rest =>
       if a = '3' ∧ (b = '0' ∨ b = '1') then [(30 + dv b, rest)] else []
     | _ => []) ++
    (match cs with
     | a :: b :: rest =>
       if (a = '1' ∨ a = '2') ∧ isDig b then [(dv a * 10 + dv b, rest)] else []
     | _ => []) ++
    (match cs with
     | a :: b :: rest =>
       if a = '0' ∧ (isDig b ∧ b ≠ '0') then [(dv b, rest)] else []
     | _ => []) ++
    (match cs with
     | a :: rest => if isDig a ∧ a ≠ '0' then [(dv a, rest)] else []
     | _ => []) ++
    (match cs with
     | a :: b :: rest =>
       if a = ' ' ∧ (isDig b ∧ b ≠ '0') then [(dv b, rest)] else []
     | _ => [])
  | .dH, cs =>
    (match cs with
     | a :: b :: rest =>
       if a = '2' ∧ (b = '0' ∨ b = '1' ∨ b = '2' ∨ b = '3') then [(20 + dv b, rest)] else []
     | _ => []) ++
    (match cs with
     | a :: b :: rest =>
       if (a = '0' ∨ a = '1') ∧ isDig b then [(dv a * 10 + dv b, rest)] else []
     | _ => []) ++
    (match cs with
     | a :: rest => if isDig a then [(dv a, rest)] else []
     | _ => [])
  | .dMin, cs =>
    (match cs with
     | a :: b :: rest =>
       if (a = '0' ∨ a = '1' ∨ a = '2' ∨ a = '3' ∨ a = '4' ∨ a = '5') ∧ isDig b then
         [(dv a * 10 + dv b, rest)]
       else []
     | _ => []) ++
    (match cs with
     | a :: rest => if isDig a then [(dv a, rest)] else []
     | _ => [])
  | .dS, cs =>
    (match cs with
     | a :: b :: rest =>
       if a = '6' ∧ (b = '0' ∨ b = '1') then [(60 + dv b, rest)] else []
     | _ => []) ++
    (match cs with
     | a :: b :: rest =>
       if (a = '0' ∨ a = '1' ∨ a = '2' ∨ a = '3' ∨ a = '4' ∨ a = '5') ∧ isDig b then
         [(dv a * 10 + dv b, rest)]
       else []
     | _ => []) ++
    (match cs with
     | a :: rest => if isDig a then [(dv a, rest)] else []
     | _ => [])
  | .dB, cs =>
    match cs with
    | c1 :: c2 :: c3 :: rest =>
      match monthNum3 c1 c2 c3 with
      | some m => [(m, rest)]
      | none => []
    | _ => []
  | .lit _, _ => []
  | .ws, _ => []

/-- Regex matching of a `strptime` format against a prefix of the input:
directives backtrack through their alternatives when a later element fails,
and the first overall success is returned together with the unconsumed
suffix (CPython checks that suffix afterwards, see `strptime`). -/
def spMatch : List STok → List Char → Option (List (STok × Nat) × List Char)
  | [], cs => some ([], cs)
  | .lit c :: ts, cs =>
    match cs with
    | c2 :: rest => if c2 = c then spMatch ts rest else none
    | [] => none
  | .ws :: ts, cs =>
    let k := leadWS cs
    if k = 0 then none else spMatch ts (cs.drop k)
  | t :: ts, cs =>
    (dAlts t cs).findSome? (fun vr =>
      match spMatch ts vr.2 with
      | some (vs, r) => some ((t, vr.1) :: vs, r)
      | none => none)

/-- Assemble the parsed directive values into a `datetime`, with CPython's
defaults (1900-01-01 00:00:00) and two-digit-year pivot (`≤ 68` → 2000s). -/
def buildDT (vs : List (STok × Nat)) : Option DT :=
  let valOf : STok → Option Nat := fun t =>
    (vs.find? (fun p => decide (p.1 = t))).map Prod.snd
  let y : Nat :=
    match valOf .dY4 with
    | some v => v
    | none =>
      match valOf .dY2 with
      | some v => if v ≤ 68 then v + 2000 else v + 1900
      | none => 1900
  let mo : Nat :=
    match valOf .dM with
    | some v => v
    | none => (valOf .dB).getD 1
  mkDT y mo ((valOf .dD).getD 1) ((valOf .dH).getD 0) ((valOf .dMin).getD 0)
    ((valOf .dS).getD 0)

/-- `datetime.strptime(data, format)`: the regex must match at position 0
and any unconverted trailing data raises `ValueError` (here: `none`). -/
def strptime (fmt : List STok) (cs : List Char) : Option DT :=
  match spMatch fmt cs with
  | some (vs, []) => buildDT vs
  | _ => none

/-- Format `%Y-%m-%d`. -/
def fmtYMD : List STok := [.dY4, .lit '-', .dM, .lit '-', .dD]

/-- Format `%Y%m%d`. -/
def fmtYMDcompact : List STok := [.dY4, .dM, .dD]

/-- Format `%d-%m-%y`. -/
def fmtDMy2 : List STok := [.dD, .lit '-', .dM, .lit '-', .dY2]

/-- Format `%y-%m-%d`. -/
def fmtY2MD : List STok := [.dY2, .lit '-', .dM, .lit '-', .dD]

/-- Format `%d-%m-%Y`. -/
def fmtDMY : List STok := [.dD, .lit '-', .dM, .lit '-', .dY4]

/-- Format `%m-%d-%Y`. -/
def fmtMDY : List STok := [.dM, .lit '-', .dD, .lit '-', .dY4]

/-- Format `%b-%d-%y`. -/
def fmtBDY : List STok := [.dB, .lit '-', .dD, .lit '-', .dY2]

/-- Format `%d%b%y`. -/
def fmtDBY : List STok := [.dD, .dB, .dY2]

/-- Format `%Y:%m:%d %H:%M:%S` (the exiftool output format). -/
def fmtExif : List STok :=
  [.dY4, .lit ':', .dM, .lit ':', .dD, .ws, .dH, .lit ':', .dMin, .lit ':', .dS]

/-! ### The pattern catalogue and its regex engine -/

/-- One element of a catalogue pattern: a captured digit group `(\d{lo,hi})`,
a captured letter group `([A-Za-z]{n})`, a one-character class, or the
non-capturing guards of the bare-year pattern. -/
inductive RTok where
  | digits (lo hi : Nat)
  | alpha (n : Nat)
  | cls (cs : List Char)
  | startOrNonDigit
  | nonDigitOrEnd
deriving DecidableEq

/-- Number of leading ASCII digits. -/
def leadDigits : List Char → Nat
  | [] => 0
  | c :: cs => if isDig c then leadDigits cs + 1 else 0

/-- Match a token list at the current position (`atStart` marks absolute
input position 0, where `^` can match).  Digit groups are greedy with
backtracking, exactly like Python's bounded `\d{lo,hi}`; on success the
captured groups and the unconsumed suffix are returned. -/
def matchToks : List RTok → List Char → Bool → Option (List (List Char) × List Char)
  | [], cs, _ => some ([], cs)
  | .digits lo hi :: ts, cs, _ =>
    ((List.range (min hi (leadDigits cs) + 1)).reverse).findSome? (fun j =>
      if j < lo then none
      else
        match matchToks ts (cs.drop j) false with
        | some (gs, r) => some ((cs.take j) :: gs, r)
        | none => none)
  | .alpha n :: ts, cs, _ =>
    let cap := cs.take n
    if cap.length = n ∧ cap.all isAlphaChar then
      match matchToks ts (cs.drop n) false with
      | some (gs, r) => some (cap :: gs, r)
      | none => none
    else none
  | .cls set :: ts, cs, _ =>
    match cs with
    | c :: rest => if set.contains c then matchToks ts rest false else none
    | [] => none
  | .startOrNonDigit :: ts, cs, atStart =>
    let viaChar : Option (List (List Char) × List Char) :=
      match cs with
      | c :: rest => if isDig c then none else matchToks ts rest false
      | [] => none
    if atStart then
      match matchToks ts cs false with
      | some r => some r
      | none => viaChar
    else viaChar
  | .nonDigitOrEnd :: ts, cs, _ =>
    match cs with
    | c :: rest => if isDig c then none else matchToks ts rest false
    | [] => matchToks ts [] false

/-- Scan for the next match from each position left to right, emitting
non-overlapping matches exactly like `re.finditer` (an empty match would
advance by one character).  The `fuel` argument only makes the recursion
structural: every step shortens the text, so `finditer`'s initial fuel of
`length + 1` is never exhausted. -/
def finditerAux (toks : List RTok) : Nat → List Char → Bool → List (List (List Char))
  | 0, _, _ => []
  | fuel + 1, cs, atStart =>
    match matchToks toks cs atStart with
    | some (gs, rest) =>
      if rest.length < cs.length then gs :: finditerAux toks fuel rest false
      else
        match cs with
        | [] => [gs]
        | _ :: cs2 => gs :: finditerAux toks fuel cs2 false
    | none =>
      match cs with
      | [] => []
      | _ :: cs2 => finditerAux toks fuel cs2 false

/-- All matches of a catalogue pattern in a text, as lists of captured
groups. -/
def finditer (toks : List RTok) (text : List Char) : List (List (List Char)) :=
  finditerAux toks (text.length + 1) text true

/-- The semantic format attached to each catalogue pattern (the Python
source dispatches on the literal format string; `Fmt.pyStr` recovers it). -/
inductive Fmt where
  | ymd_hms
  | ymd_hm
  | ymd
  | dmY
  | mdY
  | ymdCompact
  | dmy2
  | y2md
  | dby
  | bdy
  | ybd
  | ym
  | ymCompact
  | yOnly
deriving DecidableEq

/-- The Python format string of a catalogue entry, used verbatim in
provenance tags by the fall-through branches. -/
def Fmt.pyStr : Fmt → String
  | .ymd_hms => "%Y-%m-%d-%H-%M-%S"
  | .ymd_hm => "%Y-%m-%d-%H-%M"
  | .ymd => "%Y-%m-%d"
  | .dmY => "%d-%m-%Y"
  | .mdY => "%m-%d-%Y"
  | .ymdCompact => "%Y%m%d"
  | .dmy2 => "%d-%m-%y"
  | .y2md => "%y-%m-%d"
  | .dby => "%d%b%y"
  | .bdy => "%b-%d-%y"
  | .ybd => "%y-%b-%d"
  | .ym => "%Y-%m"
  | .ymCompact => "%Y%m"
  | .yOnly => "%Y"

/-- `strptime` directives of the formats handled by the fall-through
("standard date formats") branch; the source's `.replace("_","-")`
`.replace("/","-")` is the identity on these strings. -/
def Fmt.stdToks : Fmt → List STok
  | .ymd => fmtYMD
  | .ymdCompact => fmtYMDcompact
  | .dmy2 => fmtDMy2
  | .y2md => fmtY2MD
  | _ => []

/-- Separator class: underscore, hyphen, slash. -/
def sepDash : List Char := ['_', '-', '/']

/-- Separator class: underscore, hyphen, whitespace. -/
def sepWS : List Char := '_' :: '-' :: wsChars

/-- Separator class: colon, hyphen. -/
def sepColon : List Char := [':', '-']

/-- `DateExtractor.date_patterns`: the fixed catalogue, in source order. -/
def date_patterns : List (List RTok × Fmt) :=
  [([.digits 4 4, .cls sepDash, .digits 1 2, .cls sepDash, .digits 1 2, .cls sepWS,
     .digits 1 2, .cls sepColon, .digits 1 2, .cls sepColon, .digits 1 2], .ymd_hms),
   ([.digits 4 4, .cls sepDash, .digits 1 2, .cls sepDash, .digits 1 2, .cls sepWS,
     .digits 1 2, .cls sepColon, .digits 1 2], .ymd_hm),
   ([.digits 4 4, .cls sepDash, .digits 1 2, .cls sepDash, .digits 1 2], .ymd),
   ([.digits 1 2, .cls sepDash, .digits 1 2, .cls sepDash, .digits 4 4], .dmY),
   ([.digits 1 2, .cls sepDash, .digits 1 2, .cls sepDash, .digits 4 4], .mdY),
   ([.digits 4 4, .digits 2 2, .digits 2 2], .ymdCompact),
   ([.digits 1 2, .cls sepDash, .digits 1 2, .cls sepDash, .digits 2 2], .dmy2),
   ([.digits 2 2, .cls sepDash, .digits 1 2, .cls sepDash, .digits 1 2], .y2md),
   ([.digits 1 2, .alpha 3, .digits 2 4], .dby),
   ([.alpha 3, .cls sepWS, .digits 1 2, .cls sepWS, .digits 2 4], .bdy),
   ([.digits 2 4, .cls sepWS, .alpha 3, .cls sepWS, .digits 1 2], .ybd),
   ([.digits 4 4, .cls sepDash, .digits 1 2], .ym),
   ([.digits 4 4, .digits 2 2], .ymCompact),
   ([.startOrNonDigit, .digits 4 4, .nonDigitOrEnd], .yOnly)]

/-- `"-".join(match.groups())`. -/
def joinDash : List (List Char) → List Char
  | [] => []
  | [g] => g
  | g :: gs => g ++ '-' :: joinDash gs

/-! ### The two per-match dispatch bodies -/

/-- The per-match dispatch of `extract_filename_dates`, translated branch by
branch.  Note which branches do NOT re-check `is_valid_date` before
appending: the bare-year branch, the ambiguous `%d-%m-%Y`/`%m-%d-%Y` branch
and the fall-through standard branch append unconditionally. -/
def filenameDispatch (cy : Nat) (fmt : Fmt) (gs : List (List Char)) : List (DT × String) :=
  match fmt with
  | .ymd_hms =>
    match gs with
    | [p0, p1, p2, p3, p4, p5] =>
      match strToNat? p0, strToNat? p1, strToNat? p2, strToNat? p3, strToNat? p4,
          strToNat? p5 with
      | some y, some mo, some d, some h, some mi, some s =>
        match mkDT y mo d h mi s with
        | some dt =>
          if is_valid_date cy dt then [(dt, "filename:YYYY-MM-DD HH:MM:SS")] else []
        | none => []
      | _, _, _, _, _, _ => []
    | _ => []
  | .ymd_hm =>
    match gs with
    | [p0, p1, p2, p3, p4] =>
      match strToNat? p0, strToNat? p1, strToNat? p2, strToNat? p3, strToNat? p4 with
      | some y, some mo, some d, some h, some mi =>
        match mkDT y mo d h mi 0 with
        | some dt =>
          if is_valid_date cy dt then [(dt, "filename:YYYY-MM-DD HH:MM")] else []
        | none => []
      | _, _, _, _, _ => []
    | _ => []
  | .dby =>
    match gs with
    | [day, mon, year] =>
      match strptime fmtDBY (day ++ mon ++ year) with
      | some dt => if is_valid_date cy dt then [(dt, "filename:DD-MMM-YY")] else []
      | none => []
    | _ => []
  | .bdy =>
    match gs with
    | [mon, day, year] =>
      match strptime fmtBDY (mon ++ '-' :: day ++ '-' :: year) with
      | some dt => if is_valid_date cy dt then [(dt, "filename:%b-%d-%y")] else []
      | none => []
    | _ => []
  | .ybd =>
    match gs with
    | [year, mon, day] =>
      match strptime fmtBDY (mon ++ '-' :: day ++ '-' :: year) with
      | some dt => if is_valid_date cy dt then [(dt, "filename:%y-%b-%d")] else []
      | none => []
    | _ => []
  | .ym =>
    match gs with
    | [year, mon] =>
      match strToNat? year, strToNat? mon with
      | some y, some m =>
        match mkDT y m 1 0 0 0 with
        | some dt =>
          if is_valid_date cy dt then
            [(dt, "filename:YYYY-MM (set to 1st of month)")]
          else []
        | none => []
      | _, _ => []
    | _ => []
  | .ymCompact =>
    match gs with
    | g1 :: _ =>
      match strToNat? (g1.take 4), strToNat? (g1.drop 4) with
      | some y, some m =>
        match mkDT y m 1 0 0 0 with
        | some dt =>
          if is_valid_date cy dt then
            [(dt, "filename:YYYYMM (set to 1st of month)")]
          else []
        | none => []
      | _, _ => []
    | [] => []
  | .yOnly =>
    match gs with
    | [g1] =>
      match strToNat? g1 with
      | some y =>
        if 1900 ≤ y ∧ y ≤ 2100 then
          match mkDT y 1 1 0 0 0 with
          | some dt => [(dt, "filename:YYYY (set to Jan 1st)")]
          | none => []
        else []
      | none => []
    | _ => []
  | .dmY | .mdY =>
    match gs with
    | [p0, p1, p2] =>
      (match strptime fmtDMY (p0 ++ '-' :: p1 ++ '-' :: p2) with
       | some dt => [(dt, "filename:DD-MM-YYYY")]
       | none => []) ++
      (match strptime fmtMDY (p0 ++ '-' :: p1 ++ '-' :: p2) with
       | some dt => [(dt, "filename:MM-DD-YYYY")]
       | none => [])
    | _ => []
  | .ymd | .ymdCompact | .dmy2 | .y2md =>
    let ds : List Char :=
      match gs with
      | [g] => g
      | _ => joinDash gs
    match strptime fmt.stdToks ds with
    | some dt => [(dt, "filename:" ++ fmt.pyStr)]
    | none => []

/-- The per-match dispatch of `extract_path_dates`, translated branch by
branch.  Unlike the filename version, every branch re-checks
`is_valid_date` before appending, and the bare-year window is 1970–2100. -/
def pathDispatch (cy : Nat) (fmt : Fmt) (gs : List (List Char)) : List (DT × String) :=
  match fmt with
  | .ymd_hms =>
    match gs with
    | [p0, p1, p2, p3, p4, p5] =>
      match strToNat? p0, strToNat? p1, strToNat? p2, strToNat? p3, strToNat? p4,
          strToNat? p5 with
      | some y, some mo, some d, some h, some mi, some s =>
        match mkDT y mo d h mi s with
        | some dt =>
          if is_valid_date cy dt then [(dt, "path:YYYY-MM-DD HH:MM:SS")] else []
        | none => []
      | _, _, _, _, _, _ => []
    | _ => []
  | .ymd_hm =>
    match gs with
    | [p0, p1, p2, p3, p4] =>
      match strToNat? p0, strToNat? p1, strToNat? p2, strToNat? p3, strToNat? p4 with
      | some y, some mo, some d, some h, some mi =>
        match mkDT y mo d h mi 0 with
        | some dt =>
          if is_valid_date cy dt then [(dt, "path:YYYY-MM-DD HH:MM")] else []
        | none => []
      | _, _, _, _, _ => []
    | _ => []
  | .dby =>
    match gs with
    | [day, mon, year] =>
      match strptime fmtDBY (day ++ mon ++ year) with
      | some dt => if is_valid_date cy dt then [(dt, "path:DD-MMM-YY")] else []
      | none => []
    | _ => []
  | .bdy =>
    match gs with
    | [mon, day, year] =>
      match strptime fmtBDY (mon ++ '-' :: day ++ '-' :: year) with
      | some dt => if is_valid_date cy dt then [(dt, "path:%b-%d-%y")] else []
      | none => []
    | _ => []
  | .ybd =>
    match gs with
    | [year, mon, day] =>
      match strptime fmtBDY (mon ++ '-' :: day ++ '-' :: year) with
      | some dt => if is_valid_date cy dt then [(dt, "path:%y-%b-%d")] else []
      | none => []
    | _ => []
  | .ym =>
    match gs with
    | [year, mon] =>
      match strToNat? year, strToNat? mon with
      | some y, some m =>
        match mkDT y m 1 0 0 0 with
        | some dt =>
          if is_valid_date cy dt then [(dt, "path:YYYY-MM (set to 1st of month)")]
          else []
        | none => []
      | _, _ => []
    | _ => []
  | .ymCompact =>
    match gs with
    | g1 :: _ =>
      match strToNat? (g1.take 4), strToNat? (g1.drop 4) with
      | some y, some m =>
        match mkDT y m 1 0 0 0 with
        | some dt =>
          if is_valid_date cy dt then [(dt, "path:YYYYMM (set to 1st of month)")]
          else []
        | none => []
      | _, _ => []
    | [] => []
  | .yOnly =>
    match gs with
    | [g1] =>
      match strToNat? g1 with
      | some y =>
        if 1970 ≤ y ∧ y ≤ 2100 then
          match mkDT y 1 1 0 0 0 with
          | some dt =>
            if is_valid_date cy dt then [(dt, "path:YYYY (set to Jan 1st)")] else []
          | none => []
        else []
      | none => []
    | _ => []
  | .dmY | .mdY =>
    match gs with
    | [p0, p1, p2] =>
      (match strptime fmtDMY (p0 ++ '-' :: p1 ++ '-' :: p2) with
       | some dt => if is_valid_date cy dt then [(dt, "path:DD-MM-YYYY")] else []
       | none => []) ++
      (match strptime fmtMDY (p0 ++ '-' :: p1 ++ '-' :: p2) with
       | some dt => if is_valid_date cy dt then [(dt, "path:MM-DD-YYYY")] else []
       | none => [])
    | _ => []
  | .ymd | .ymdCompact | .dmy2 | .y2md =>
    let ds : List Char :=
      match gs with
      | [g] => g
      | _ => joinDash gs
    match strptime fmt.stdToks ds with
    | some dt => if is_valid_date cy dt then [(dt, "path:" ++ fmt.pyStr)] else []
    | none => []

/-! ### Source scanners -/

/-- Run every catalogue pattern over a text and dispatch every match. -/
def scanText (dispatch : Nat → Fmt → List (List Char) → List (DT × String))
    (cy : Nat) (text : List Char) : List (DT × String) :=
  date_patterns.flatMap (fun pe =>
    (finditer pe.1 text).flatMap (fun gs => dispatch cy pe.2 gs))

/-- Split on `/`. -/
def splitSlash : List Char → List (List Char)
  | [] => [[]]
  | c :: cs =>
    if c = '/' then [] :: splitSlash cs
    else
      match splitSlash cs with
      | g :: gs => (c :: g) :: gs
      | [] => [[c]]

/-- `pathlib.Path(file_path).parts` for POSIX paths: the root (if any)
followed by the non-empty, non-`.` components — including the final
filename component. -/
def pathParts (s : String) : List (List Char) :=
  let comps := (splitSlash s.data).filter (fun c => !(c == [] || c == ['.']))
  if s.data.head? = some '/' then ['/'] :: comps else comps

/-- `pathlib.Path(file_path).name`: the last component. -/
def nameOf (s : String) : List Char :=
  match (pathParts s).getLast? with
  | some p => if p = ['/'] then [] else p
  | none => []

/-- `pathlib.Path(file_path).stem`: the name with its suffix removed when
the last dot is at an index `i` with `0 < i < len - 1`. -/
def stem (s : String) : List Char :=
  let name := nameOf s
  match name.reverse.findIdx? (fun c => c == '.') with
  | some j =>
    let i := name.length - 1 - j
    if 0 < i ∧ i < name.length - 1 then name.take i else name
  | none => name

/-- `DateExtractor.extract_filename_dates`: scan the stem of the path. -/
def extract_filename_dates (cy : Nat) (file_path : String) : List (DT × String) :=
  scanText filenameDispatch cy (stem file_path)

/-- `DateExtractor.extract_path_dates`: scan every component of
`Path(file_path).parts` with the path dispatch. -/
def extract_path_dates (cy : Nat) (file_path : String) : List (DT × String) :=
  (pathParts file_path).flatMap (fun part => scanText pathDispatch cy part)

/-- The metadata fields, in stated preference order. -/
def exif_date_fields : List String :=
  ["DateTimeOriginal", "CreateDate", "DateTime", "DateTimeDigitized",
   "ModifyDate", "FileModifyDate"]

/-- The body of the per-field loop of `DateExtractor.extract_exif_dates`:
a missing or falsy field contributes nothing, an unparseable raw value is
skipped (`ValueError` → `continue`), an implausible one is reported and
dropped. -/
def exifFieldScan (cy : Nat) (exifData : String → Option String) (field : String) :
    List (DT × String) :=
  match exifData field with
  | some raw =>
    if raw = "" then []
    else
      match strptime fmtExif raw.data with
      | some dt => if is_valid_date cy dt then [(dt, "EXIF:" ++ field)] else []
      | none => []
  | none => []

/-- `DateExtractor.extract_exif_dates`, with the exiftool output modelled as
a mapping from field name to raw timestamp string. -/
def extract_exif_dates (cy : Nat) (exifData : String → Option String) :
    List (DT × String) :=
  exif_date_fields.flatMap (exifFieldScan cy exifData)

/-! ### Scoring and resolution -/

/-- Python's `needle in haystack` substring test. -/
def listHasInfix (hay needle : List Char) : Bool :=
  if needle.isPrefixOf hay then true
  else
    match hay with
    | [] => needle.isEmpty
    | _ :: t => listHasInfix t needle

/-- Substring containment on strings. -/
def strContains (hay needle : String) : Bool := listHasInfix hay.data needle.data

/-- `DateExtractor.get_date_precision_score`, an ordered chain of substring
tests on the provenance tag. -/
def get_date_precision_score (source : String) : Nat :=
  if strContains source "EXIF:DateTimeOriginal" then 100
  else if strContains source "EXIF:CreateDate" then 95
  else if strContains source "EXIF:DateTime" then 90
  else if strContains source "EXIF:DateTimeDigitized" then 85
  else if strContains source "EXIF:ModifyDate" then 80
  else if strContains source "EXIF:FileModifyDate" then 75
  else if strContains source "filename:" then
    if strContains source "HH:MM:SS" then 70
    else if strContains source "HH:MM" then 65
    else if strContains source "DD-MM-YYYY" || strContains source "MM-DD-YYYY"
        || strContains source "YYYY-MM-DD" then 60
    else if strContains source "YYYY-MM" then 55
    else if strContains source "YYYY" && strContains source "Jan 1st" then 20
    else 50
  else if strContains source "path:" then
    if strContains source "HH:MM:SS" then 45
    else if strContains source "HH:MM" then 40
    else if strContains source "DD-MM-YYYY" || strContains source "MM-DD-YYYY"
        || strContains source "YYYY-MM-DD" then 35
    else if strContains source "YYYY-MM" then 30
    else if strContains source "YYYY" && strContains source "Jan 1st" then 10
    else 25
  else 0

/-- Chronological order on instants (Python `datetime` comparison),
lexicographic on the six fields. -/
def DT.leP (a b : DT) : Prop :=
  a.year < b.year ∨ (a.year = b.year ∧ (a.month < b.month ∨ (a.month = b.month ∧
    (a.day < b.day ∨ (a.day = b.day ∧ (a.hour < b.hour ∨ (a.hour = b.hour ∧
    (a.minute < b.minute ∨ (a.minute = b.minute ∧ a.second ≤ b.second)))))))))

instance (a b : DT) : Decidable (DT.leP a b) := by
  unfold DT.leP; infer_instance

/-- The sort comparator of `get_best_date`: Python sorts ascending by the
key `(-score, date)`, i.e. score descending then instant ascending. -/
def rankLE (a b : DT × String) : Bool :=
  decide (get_date_precision_score b.2 < get_date_precision_score a.2 ∨
    (get_date_precision_score a.2 = get_date_precision_score b.2 ∧ DT.leP a.1 b.1))

/-- The dedup loop of `get_best_date`: first-seen instant wins, with the
seen-set accumulated in `seen`.  The Python key is the to-the-second
`strftime` rendering, which is injective on `DT`, so instants are compared
directly. -/
def dedupAux : List (DT × String) → List DT → List (DT × String)
  | [], _ => []
  | (d, s) :: rest, seen =>
    if d ∈ seen then dedupAux rest seen
    else (d, s) :: dedupAux rest (d :: seen)

/-- Deduplication by exact instant, keeping first-seen provenance. -/
def dedup (l : List (DT × String)) : List (DT × String) := dedupAux l []

/-- Stable insertion of one element into a sorted list. -/
def insertRank (le : α → α → Bool) (a : α) : List α → List α
  | [] => [a]
  | y :: ys => if le a y then a :: y :: ys else y :: insertRank le a ys

/-- Stable insertion sort, modelling Python's stable `list.sort`. -/
def sortRank (le : α → α → Bool) : List α → List α
  | [] => []
  | a :: l => insertRank le a (sortRank le l)

/-- The resolution core of `DateExtractor.get_best_date`, from the collected
candidate list onward: empty input reports "no date found" (`(none, [])`),
otherwise the deduplicated list is sorted by `(-score, instant)` and the
head is the winner; the full sorted list is the ranked diagnostic report. -/
def get_best_from (all_dates : List (DT × String)) :
    Option (DT × String) × List (DT × String) :=
  match all_dates with
  | [] => (none, [])
  | _ :: _ =>
    let sorted := sortRank rankLE (dedup all_dates)
    (sorted.head?, sorted)

/-- `DateExtractor.get_best_date`: collect from the three scanners in
metadata, filename, path order and resolve. -/
def get_best_date (cy : Nat) (exifData : String → Option String)
    (file_path : String) : Option (DT × String) × List (DT × String) :=
  get_best_from (extract_exif_dates cy exifData ++ extract_filename_dates cy file_path
    ++ extract_path_dates cy file_path)

/-! ### Order and sorting lemmas -/

theorem DT.leP_trans (a b c : DT) (h1 : DT.leP a b) (h2 : DT.leP b c) : DT.leP a c := by
  unfold DT.leP at *; omega

theorem DT.leP_total (a b : DT) : DT.leP a b ∨ DT.leP b a := by
  unfold DT.leP; omega

theorem DT.leP_antisymm (a b : DT) (h1 : DT.leP a b) (h2 : DT.leP b a) : a = b := by
  cases a; cases b
  unfold DT.leP at *
  simp only [DT.mk.injEq]
  simp only at h1 h2
  omega

theorem rankLE_trans (a b c : DT × String) (h1 : rankLE a b = true)
    (h2 : rankLE b c = true) : rankLE a c = true := by
  simp only [rankLE, decide_eq_true_eq] at *
  rcases h1 with h1 | ⟨h1, h1'⟩ <;> rcases h2 with h2 | ⟨h2, h2'⟩
  · exact Or.inl (by omega)
  · exact Or.inl (by omega)
  · exact Or.inl (by omega)
  · exact Or.inr ⟨by omega, DT.leP_trans _ _ _ h1' h2'⟩

theorem rankLE_total (a b : DT × String) : rankLE a b = true ∨ rankLE b a = true := by
  simp only [rankLE, decide_eq_true_eq]
  rcases Nat.lt_trichotomy (get_date_precision_score a.2) (get_date_precision_score b.2)
    with h | h | h
  · exact Or.inr (Or.inl h)
  · rcases DT.leP_total a.1 b.1 with hl | hl
    · exact Or.inl (Or.inr ⟨h, hl⟩)
    · exact Or.inr (Or.inr ⟨h.symm, hl⟩)
  · exact Or.inl (Or.inl h)

theorem insertRank_perm (le : α → α → Bool) (a : α) (l : List α) :
    List.Perm (insertRank le a l) (a :: l) := by
  induction l with
  | nil => simp [insertRank]
  | cons y ys ih =>
    simp only [insertRank]
    split
    · exact List.Perm.refl _
    · exact List.Perm.trans (List.Perm.cons y ih) (List.Perm.swap a y ys)

theorem sortRank_perm (le : α → α → Bool) (l : List α) :
    List.Perm (sortRank le l) l := by
  induction l with
  | nil => exact List.Perm.refl _
  | cons a l ih =>
    exact List.Perm.trans (insertRank_perm le a (sortRank le l)) (List.Perm.cons a ih)

theorem insertRank_pairwise (le : α → α → Bool)
    (total : ∀ x y, le x y = true ∨ le y x = true)
    (trans : ∀ x y z, le x y = true → le y z = true → le x z = true)
    (a : α) (l : List α) (h : List.Pairwise (fun x y => le x y = true) l) :
    List.Pairwise (fun x y => le x y = true) (insertRank le a l) := by
  induction l with
  | nil => simp [insertRank]
  | cons y ys ih =>
    simp only [insertRank]
    rcases List.pairwise_cons.mp h with ⟨hy, hys⟩
    split
    · rename_i hle
      refine List.pairwise_cons.mpr ⟨?_, h⟩
      intro b hb
      rcases hb with _ | hb
      · exact hle
      · exact trans a y _ hle (hy _ (by assumption))
    · rename_i hnle
      refine List.pairwise_cons.mpr ⟨?_, ih hys⟩
      intro b hb
      have hmem := (insertRank_perm le a ys).mem_iff.mp hb
      rcases List.mem_cons.mp hmem with hb2 | hb2
      · subst hb2
        rcases total y b with h1 | h1
        · exact h1
        · exact absurd h1 (by simpa using hnle)
      · exact hy _ hb2

theorem sortRank_pairwise (le : α → α → Bool)
    (total : ∀ x y, le x y = true ∨ le y x = true)
    (trans : ∀ x y z, le x y = true → le y z = true → le x z = true)
    (l : List α) :
    List.Pairwise (fun x y => le x y = true) (sortRank le l) := by
  induction l with
  | nil => simp [sortRank]
  | cons a l ih => exact insertRank_pairwise le total trans a _ ih

/-! ### Deduplication lemmas -/

theorem mem_dedupAux (l : List (DT × String)) (seen : List DT) (c : DT × String)
    (h : c ∈ dedupAux l seen) : c ∈ l := by
  induction l generalizing seen with
  | nil => simp [dedupAux] at h
  | cons x rest ih =>
    obtain ⟨d, s⟩ := x
    simp only [dedupAux] at h
    split at h
    · exact List.mem_cons_of_mem _ (ih _ h)
    · rcases List.mem_cons.mp h with h1 | h1
      · exact h1 ▸ List.mem_cons_self _ _
      · exact List.mem_cons_of_mem _ (ih _ h1)

theorem mem_dedupAux_notSeen (l : List (DT × String)) (seen : List DT) (c : DT × String)
    (h : c ∈ dedupAux l seen) : ¬ c.1 ∈ seen := by
  induction l generalizing seen with
  | nil => simp [dedupAux] at h
  | cons x rest ih =>
    obtain ⟨d, s⟩ := x
    simp only [dedupAux] at h
    split at h
    · exact ih _ h
    · rcases List.mem_cons.mp h with h1 | h1
      · subst h1; assumption
      · intro hc
        exact ih _ h1 (List.mem_cons_of_mem _ hc)

theorem mem_dedupAux_iff (l : List (DT × String)) (seen : List DT) (d : DT) (s : String) :
    (d, s) ∈ dedupAux l seen ↔
      (¬ d ∈ seen ∧ l.find? (fun x => decide (x.1 = d)) = some (d, s)) := by
  induction l generalizing seen with
  | nil => simp [dedupAux]
  | cons x rest ih =>
    obtain ⟨d0, s0⟩ := x
    simp only [dedupAux]
    by_cases hd : d0 = d
    · subst hd
      rw [List.find?_cons_of_pos _ (by simp)]
      split
      · rename_i hseen
        rw [ih]
        constructor
        · rintro ⟨h1, -⟩
          exact absurd hseen h1
        · rintro ⟨h1, h2⟩
          exact absurd hseen h1
      · rename_i hseen
        constructor
        · intro h
          rcases List.mem_cons.mp h with h1 | h1
          · refine ⟨hseen, ?_⟩
            rw [Prod.mk.injEq] at h1
            rw [h1.2]
          · exact absurd (mem_dedupAux_notSeen _ _ _ h1) (by simp)
        · rintro ⟨h1, h2⟩
          rw [Option.some.injEq, Prod.mk.injEq] at h2
          rw [h2.2]
          exact List.mem_cons_self _ _
    · rw [List.find?_cons_of_neg _ (by simpa using hd)]
      split
      · rename_i hseen
        rw [ih]
      · rename_i hseen
        constructor
        · intro h
          rcases List.mem_cons.mp h with h1 | h1
          · rw [Prod.mk.injEq] at h1
            exact absurd h1.1.symm hd
          · rw [ih] at h1
            refine ⟨fun hc => h1.1 (List.mem_cons_of_mem _ hc), h1.2⟩
        · rintro ⟨h1, h2⟩
          refine List.mem_cons_of_mem _ ?_
          rw [ih]
          exact ⟨by simp [hd, Ne.symm hd, h1], h2⟩

theorem dedupAux_pairwise (l : List (DT × String)) (seen : List DT) :
    (dedupAux l seen).Pairwise (fun a b => a.1 ≠ b.1) := by
  induction l generalizing seen with
  | nil => simp [dedupAux]
  | cons x rest ih =>
    obtain ⟨d, s⟩ := x
    simp only [dedupAux]
    split
    · exact ih _
    · refine List.pairwise_cons.mpr ⟨?_, ih _⟩
      intro b hb
      have := mem_dedupAux_notSeen _ _ _ hb
      simp only at this ⊢
      intro he
      exact this (he ▸ List.mem_cons_self _ _)

theorem dedup_cons (x : DT × String) (rest : List (DT × String)) :
    dedup (x :: rest) = x :: dedupAux rest [x.1] := by
  obtain ⟨d, s⟩ := x
  simp [dedup, dedupAux]

/-! ### Resolver helper lemmas -/

theorem get_best_from_eq (l : List (DT × String)) :
    get_best_from l =
      ((sortRank rankLE (dedup l)).head?, sortRank rankLE (dedup l)) := by
  cases l with
  | nil => rfl
  | cons x rest => rfl

theorem flatMapCongr {α β : Type} {l : List α} {f g : α → List β}
    (h : ∀ a ∈ l, f a = g a) : l.flatMap f = l.flatMap g := by
  induction l with
  | nil => rfl
  | cons x xs ih =>
    simp only [List.flatMap_cons]
    rw [h x (List.mem_cons_self _ _), ih (fun a ha => h a (List.mem_cons_of_mem _ ha))]

theorem findSome?_all {α β : Type} {l : List α} {f : α → Option β} {Q : β → Prop}
    (h : ∀ x ∈ l, ∀ b, f x = some b → Q b) :
    ∀ b, l.findSome? f = some b → Q b := by
  induction l with
  | nil => intro b hb; simp [List.findSome?] at hb
  | cons x xs ih =>
    intro b hb
    rw [List.findSome?_cons] at hb
    cases hf : f x with
    | some v =>
      rw [hf] at hb
      exact h x (List.mem_cons_self _ _) b (hf.trans hb)
    | none =>
      rw [hf] at hb
      exact ih (fun a ha => h a (List.mem_cons_of_mem _ ha)) b hb

/-! ### Claim C1 -/

/-- C1: The Resolver sorts the deduplicated candidate set by score
descending, instant ascending, and returns the head of the sorted sequence
as the winning result, with the full sorted sequence as the ranked report;
in particular an `EXIF:FileModifyDate` candidate (score 75) wins over any
set of competitors whose scores are all at most 70, such as filename
candidates. -/
theorem c1_resolver_ranking :
    (∀ (cy : Nat) (ed : String → Option String) (fp : String),
      get_best_date cy ed fp =
        ((sortRank rankLE (dedup (extract_exif_dates cy ed ++ extract_filename_dates cy fp
            ++ extract_path_dates cy fp))).head?,
          sortRank rankLE (dedup (extract_exif_dates cy ed ++ extract_filename_dates cy fp
            ++ extract_path_dates cy fp))))
    ∧ (∀ (cy : Nat) (ed : String → Option String) (fp : String),
        ((get_best_date cy ed fp).2).Pairwise (fun a b => rankLE a b = true))
    ∧ (∀ (d : DT) (rest : List (DT × String)),
        (∀ x ∈ rest, get_date_precision_score x.2 ≤ 70) →
        (get_best_from ((d, "EXIF:FileModifyDate") :: rest)).1 =
          some (d, "EXIF:FileModifyDate")) := by
  refine ⟨?_, ?_, ?_⟩
  · intro cy ed fp
    exact get_best_from_eq _
  · intro cy ed fp
    unfold get_best_date
    rw [get_best_from_eq]
    exact sortRank_pairwise _ rankLE_total rankLE_trans _
  · intro d rest hrest
    rw [get_best_from_eq]
    have hdedup : dedup ((d, "EXIF:FileModifyDate") :: rest) =
        (d, "EXIF:FileModifyDate") :: dedupAux rest [d] := dedup_cons _ _
    have hperm := sortRank_perm rankLE (dedup ((d, "EXIF:FileModifyDate") :: rest))
    have hmem_s : (d, "EXIF:FileModifyDate") ∈
        sortRank rankLE (dedup ((d, "EXIF:FileModifyDate") :: rest)) :=
      hperm.mem_iff.mpr (by rw [hdedup]; exact List.mem_cons_self _ _)
    cases hs : sortRank rankLE (dedup ((d, "EXIF:FileModifyDate") :: rest)) with
    | nil =>
      rw [hs] at hmem_s
      exact absurd hmem_s (List.not_mem_nil _)
    | cons h0 t =>
      simp only [List.head?_cons, Option.some.injEq]
      by_cases he : h0 = (d, "EXIF:FileModifyDate")
      · exact he
      · exfalso
        have h0mem : h0 ∈ dedup ((d, "EXIF:FileModifyDate") :: rest) :=
          hperm.mem_iff.mp (hs ▸ List.mem_cons_self h0 t)
        have h0rest : h0 ∈ rest := by
          rw [hdedup] at h0mem
          rcases List.mem_cons.mp h0mem with h1 | h1
          · exact absurd h1 he
          · exact mem_dedupAux _ _ _ h1
        have hscore : get_date_precision_score h0.2 ≤ 70 := hrest h0 h0rest
        rw [hs] at hmem_s
        have hfmem_t : (d, "EXIF:FileModifyDate") ∈ t := by
          rcases List.mem_cons.mp hmem_s with h1 | h1
          · exact absurd h1.symm he
          · exact h1
        have hpw := sortRank_pairwise rankLE rankLE_total rankLE_trans
          (dedup ((d, "EXIF:FileModifyDate") :: rest))
        rw [hs] at hpw
        have hr := (List.pairwise_cons.mp hpw).1 _ hfmem_t
        simp only [rankLE, decide_eq_true_eq] at hr
        have h75 : get_date_precision_score "EXIF:FileModifyDate" = 75 := by decide
        rw [h75] at hr
        rcases hr with hr | ⟨hr, -⟩ <;> omega

/-- C1 witness: the spec's own scenario — metadata `FileModifyDate`
2019-05-02 10:00:00 (score 75) beats a filename datetime candidate
(score 70). -/
theorem c1_resolver_ranking_witness :
    (get_best_from [(⟨2019, 5, 2, 10, 0, 0⟩, "EXIF:FileModifyDate"),
        (⟨2019, 5, 1, 12, 0, 0⟩, "filename:YYYY-MM-DD HH:MM:SS")]).1 =
      some (⟨2019, 5, 2, 10, 0, 0⟩, "EXIF:FileModifyDate") :=
  c1_resolver_ranking.2.2 ⟨2019, 5, 2, 10, 0, 0⟩
    [(⟨2019, 5, 1, 12, 0, 0⟩, "filename:YYYY-MM-DD HH:MM:SS")] (by decide)

/-! ### Claim C3 -/

/-- C3: Deduplication is by exact instant equality at second precision and
first-seen-wins: a pair `(d, s)` survives deduplication exactly when it is
the first element of the collected sequence bearing instant `d` — later
candidates with the same instant are dropped regardless of score — and the
deduplicated list has pairwise distinct instants.  The collected sequence
that `get_best_date` feeds into `dedup` is the metadata ++ filename ++ path
concatenation, in that order. -/
theorem c3_dedup_first_wins :
    (∀ (l : List (DT × String)) (d : DT) (s : String),
      (d, s) ∈ dedup l ↔ l.find? (fun x => decide (x.1 = d)) = some (d, s))
    ∧ (∀ l : List (DT × String), (dedup l).Pairwise (fun a b => a.1 ≠ b.1)) := by
  constructor
  · intro l d s
    rw [dedup, mem_dedupAux_iff]
    simp
  · intro l
    exact dedupAux_pairwise _ _

/-! ### Claim C9 -/

/-- C9: Resolution is deterministic and idempotent: the engine is a pure
function of the metadata mapping, the path and the reference year, so two
runs on the same inputs return the identical winner and the identical
ranked report, and the winner is always the head of that report. -/
theorem c9_deterministic :
    ∀ (cy : Nat) (ed : String → Option String) (fp : String),
      get_best_date cy ed fp = get_best_date cy ed fp ∧
      (get_best_date cy ed fp).1 = ((get_best_date cy ed fp).2).head? := by
  intro cy ed fp
  refine ⟨rfl, ?_⟩
  unfold get_best_date
  rw [get_best_from_eq]

/-! ### Claim C5 -/

/-- C5 counterexample: the claim gives `Metadata:DateTimeDigitized` score
85, but the source's substring test `"EXIF:DateTime" in source` fires first
on the tag `EXIF:DateTimeDigitized`, so its score is 90, not 85. -/
theorem c5_score_counterexample :
    get_date_precision_score "EXIF:DateTimeDigitized" = 90 ∧
    ¬ get_date_precision_score "EXIF:DateTimeDigitized" = 85 := by decide

/-- C5 amended: the scores actually computed on every provenance tag the
engine generates (plus the dead `YYYYMM` tags and an unrecognized tag).
Differences from the claimed table: `DateTimeDigitized` scores 90 (shadowed
by the `EXIF:DateTime` substring test); among filename full-date tags only
the ambiguous `DD-MM-YYYY`/`MM-DD-YYYY` ones score 60 while the
`%Y-%m-%d`/`%Y%m%d` ones fall through to 50; the compact `YYYYMM` tag falls
through to 50 rather than the year-month 55; the path tier behaves
analogously (35 only for the ambiguous tags, 25 for the fall-through ones,
`YYYYMM` at 25 not 30). -/
theorem c5_score_table_amended :
    get_date_precision_score "EXIF:DateTimeOriginal" = 100 ∧
    get_date_precision_score "EXIF:CreateDate" = 95 ∧
    get_date_precision_score "EXIF:DateTime" = 90 ∧
    get_date_precision_score "EXIF:DateTimeDigitized" = 90 ∧
    get_date_precision_score "EXIF:ModifyDate" = 80 ∧
    get_date_precision_score "EXIF:FileModifyDate" = 75 ∧
    get_date_precision_score "filename:YYYY-MM-DD HH:MM:SS" = 70 ∧
    get_date_precision_score "filename:YYYY-MM-DD HH:MM" = 65 ∧
    get_date_precision_score "filename:DD-MM-YYYY" = 60 ∧
    get_date_precision_score "filename:MM-DD-YYYY" = 60 ∧
    get_date_precision_score "filename:%Y-%m-%d" = 50 ∧
    get_date_precision_score "filename:%Y%m%d" = 50 ∧
    get_date_precision_score "filename:%d-%m-%y" = 50 ∧
    get_date_precision_score "filename:%y-%m-%d" = 50 ∧
    get_date_precision_score "filename:DD-MMM-YY" = 50 ∧
    get_date_precision_score "filename:%b-%d-%y" = 50 ∧
    get_date_precision_score "filename:%y-%b-%d" = 50 ∧
    get_date_precision_score "filename:YYYY-MM (set to 1st of month)" = 55 ∧
    get_date_precision_score "filename:YYYYMM (set to 1st of month)" = 50 ∧
    get_date_precision_score "filename:YYYY (set to Jan 1st)" = 20 ∧
    get_date_precision_score "path:YYYY-MM-DD HH:MM:SS" = 45 ∧
    get_date_precision_score "path:YYYY-MM-DD HH:MM" = 40 ∧
    get_date_precision_score "path:DD-MM-YYYY" = 35 ∧
    get_date_precision_score "path:MM-DD-YYYY" = 35 ∧
    get_date_precision_score "path:%Y-%m-%d" = 25 ∧
    get_date_precision_score "path:%Y%m%d" = 25 ∧
    get_date_precision_score "path:%d-%m-%y" = 25 ∧
    get_date_precision_score "path:%y-%m-%d" = 25 ∧
    get_date_precision_score "path:DD-MMM-YY" = 25 ∧
    get_date_precision_score "path:%b-%d-%y" = 25 ∧
    get_date_precision_score "path:%y-%b-%d" = 25 ∧
    get_date_precision_score "path:YYYY-MM (set to 1st of month)" = 30 ∧
    get_date_precision_score "path:YYYYMM (set to 1st of month)" = 25 ∧
    get_date_precision_score "path:YYYY (set to Jan 1st)" = 10 ∧
    get_date_precision_score "FileSystem:Created" = 0 := by decide

/-! ### Claim C6 -/

/-- C6 counterexample: the bare year 1950 lies inside the claimed shared
window 1900–2100 and produces a filename candidate, but the path scanner
produces nothing for the same text — its window starts at 1970. -/
theorem c6_year_window_counterexample :
    extract_filename_dates 2026 "1950" =
      [(⟨1950, 1, 1, 0, 0, 0⟩, "filename:YYYY (set to Jan 1st)")] ∧
    extract_path_dates 2026 "1950" = [] := by decide

/-- C6 amended: a bare 4-digit-year group yields a year-only candidate in
filename text iff its value lies in 1900–2100, with no further sanity
filtering; in path-segment text the window is 1970–2100 and the general
Sanity Filter is additionally applied.  The two scanners do not share one
window. -/
theorem c6_year_window_amended :
    ∀ (cy : Nat) (g : List Char) (v : Nat), strToNat? g = some v →
      filenameDispatch cy .yOnly [g] =
        (if 1900 ≤ v ∧ v ≤ 2100 then
          [(⟨v, 1, 1, 0, 0, 0⟩, "filename:YYYY (set to Jan 1st)")]
        else []) ∧
      pathDispatch cy .yOnly [g] =
        (if 1970 ≤ v ∧ v ≤ 2100 then
          (if is_valid_date cy ⟨v, 1, 1, 0, 0, 0⟩ then
            [(⟨v, 1, 1, 0, 0, 0⟩, "path:YYYY (set to Jan 1st)")]
          else [])
        else []) := by
  intro cy g v hv
  have hmk : ∀ w : Nat, 1900 ≤ w ∨ 1970 ≤ w → w ≤ 2100 →
      mkDT w 1 1 0 0 0 = some ⟨w, 1, 1, 0, 0, 0⟩ := by
    intro w hw1 hw2
    unfold mkDT daysInMonth
    rw [if_pos]
    norm_num
    omega
  constructor
  · simp only [filenameDispatch, hv]
    split
    · rename_i hw
      rw [hmk v (Or.inl hw.1) hw.2]
    · rfl
  · simp only [pathDispatch, hv]
    split
    · rename_i hw
      rw [hmk v (Or.inr hw.1) hw.2]
    · rfl

/-- C6 witness: the amended statement applied at the group `"1950"`. -/
theorem c6_year_window_amended_witness :
    filenameDispatch 2026 .yOnly ["1950".data] =
      [(⟨1950, 1, 1, 0, 0, 0⟩, "filename:YYYY (set to Jan 1st)")] ∧
    pathDispatch 2026 .yOnly ["1950".data] = [] :=
  ⟨((c6_year_window_amended 2026 "1950".data 1950 (by decide)).1).trans (by decide),
   ((c6_year_window_amended 2026 "1950".data 1950 (by decide)).2).trans (by decide)⟩

/-! ### Dispatch characterization lemmas -/

theorem pathDispatch_valid (cy : Nat) (fmt : Fmt) (gs : List (List Char)) (c : DT × String)
    (h : c ∈ pathDispatch cy fmt gs) : is_valid_date cy c.1 = true := by
  cases fmt <;>
    simp only [pathDispatch] at h <;>
    (repeat' split at h) <;>
    simp only [List.mem_append, List.mem_singleton, List.not_mem_nil, or_false,
      false_or] at h <;>
    first
      | exact h.elim
      | (subst h; assumption)
      | (rcases h with rfl | rfl <;> assumption)

theorem pathDispatch_tag (cy : Nat) (fmt : Fmt) (gs : List (List Char)) (c : DT × String)
    (h : c ∈ pathDispatch cy fmt gs) : "path:".data.isPrefixOf c.2.data = true := by
  cases fmt <;>
    simp only [pathDispatch] at h <;>
    (repeat' split at h) <;>
    simp only [List.mem_append, List.mem_singleton, List.not_mem_nil, or_false,
      false_or] at h <;>
    first
      | exact h.elim
      | (subst h; rfl)
      | (rcases h with rfl | rfl <;> rfl)

theorem filenameDispatch_valid_checked (cy : Nat) (fmt : Fmt) (gs : List (List Char))
    (c : DT × String)
    (hf : fmt = Fmt.ymd_hms ∨ fmt = Fmt.ymd_hm ∨ fmt = Fmt.dby ∨ fmt = Fmt.bdy ∨
      fmt = Fmt.ybd ∨ fmt = Fmt.ym ∨ fmt = Fmt.ymCompact)
    (h : c ∈ filenameDispatch cy fmt gs) : is_valid_date cy c.1 = true := by
  rcases hf with rfl | rfl | rfl | rfl | rfl | rfl | rfl <;>
    simp only [filenameDispatch] at h <;>
    (repeat' split at h) <;>
    simp only [List.mem_singleton, List.not_mem_nil] at h <;>
    first
      | exact h.elim
      | (subst h; assumption)

theorem exifFieldScan_valid (cy : Nat) (ed : String → Option String) (f : String)
    (c : DT × String) (h : c ∈ exifFieldScan cy ed f) : is_valid_date cy c.1 = true := by
  unfold exifFieldScan at h
  (repeat' split at h) <;>
    simp only [List.mem_singleton, List.not_mem_nil] at h <;>
    first
      | exact h.elim
      | (subst h; assumption)

/-- Sentinel-date membership matches the source's `any` test. -/
theorem any_invalid_iff (y m d : Nat) :
    invalid_dates.any (fun p => y == p.1 && m == p.2.1 && d == p.2.2) = true ↔
      (y, m, d) ∈ invalid_dates := by
  simp [invalid_dates, Prod.ext_iff]
  tauto

/-! ### Claim C2 -/

/-- C2 counterexample: the sentinel calendar date 2000-01-01 appears in the
result set when it comes from the filename scanner's fall-through numeric
branch, which never calls the Sanity Filter — refuting "a candidate bearing
a sentinel calendar date never appears in the result set regardless of its
source". -/
theorem c2_sentinel_escapes_filename :
    (⟨2000, 1, 1, 0, 0, 0⟩, "filename:%Y-%m-%d") ∈
      extract_filename_dates 2026 "2000-01-01" ∧
    is_valid_date 2026 ⟨2000, 1, 1, 0, 0, 0⟩ = false := by decide

/-- C2 amended: the Sanity Filter is the stated pure predicate (year below
1970, above the reference year + 1, or sentinel year-month-day, time of day
ignored), and it is applied after every candidate construction in metadata
scanning and in path scanning, and in the filename scanner's datetime,
month-abbreviation and year-month branches; the filename scanner's
year-only, ambiguous numeric and fall-through branches append without it,
so a sentinel-dated filename candidate can reach the result set, as the
counterexample above shows. -/
theorem c2_sanity_filter_scope :
    (∀ (cy : Nat) (dt : DT),
      is_valid_date cy dt = true ↔
        (1970 ≤ dt.year ∧ dt.year ≤ cy + 1 ∧
          ¬ (dt.year, dt.month, dt.day) ∈ invalid_dates))
    ∧ (∀ (cy : Nat) (ed : String → Option String) (c : DT × String),
        c ∈ extract_exif_dates cy ed → is_valid_date cy c.1 = true)
    ∧ (∀ (cy : Nat) (fp : String) (c : DT × String),
        c ∈ extract_path_dates cy fp → is_valid_date cy c.1 = true)
    ∧ (∀ (cy : Nat) (fmt : Fmt) (gs : List (List Char)) (c : DT × String),
        (fmt = Fmt.ymd_hms ∨ fmt = Fmt.ymd_hm ∨ fmt = Fmt.dby ∨ fmt = Fmt.bdy ∨
          fmt = Fmt.ybd ∨ fmt = Fmt.ym ∨ fmt = Fmt.ymCompact) →
        c ∈ filenameDispatch cy fmt gs → is_valid_date cy c.1 = true) := by
  refine ⟨?_, ?_, ?_, ?_⟩
  · intro cy dt
    unfold is_valid_date
    split
    · rename_i h1
      simp only [Bool.false_eq_true, false_iff]
      rintro ⟨ha, hb, -⟩
      omega
    · rename_i h1
      split
      · rename_i h2
        simp only [Bool.false_eq_true, false_iff]
        rintro ⟨-, -, hmem⟩
        exact hmem ((any_invalid_iff _ _ _).mp h2)
      · rename_i h2
        simp only [true_iff]
        refine ⟨by omega, by omega, ?_⟩
        intro hmem
        exact h2 ((any_invalid_iff _ _ _).mpr hmem)
  · intro cy ed c h
    unfold extract_exif_dates at h
    rw [List.mem_flatMap] at h
    obtain ⟨f, -, hf⟩ := h
    exact exifFieldScan_valid cy ed f c hf
  · intro cy fp c h
    unfold extract_path_dates at h
    rw [List.mem_flatMap] at h
    obtain ⟨part, -, hp⟩ := h
    unfold scanText at hp
    rw [List.mem_flatMap] at hp
    obtain ⟨pe, -, hpe⟩ := hp
    rw [List.mem_flatMap] at hpe
    obtain ⟨gs, -, hgs⟩ := hpe
    exact pathDispatch_valid cy pe.2 gs c hgs
  · intro cy fmt gs c hf h
    exact filenameDispatch_valid_checked cy fmt gs c hf h

/-- C2 witness: the amended statement applied to a concrete path candidate
and a concrete month-abbreviation filename candidate. -/
theorem c2_sanity_filter_scope_witness :
    is_valid_date 2026 ⟨2020, 5, 6, 0, 0, 0⟩ = true ∧
    is_valid_date 2026 ⟨2023, 1, 25, 0, 0, 0⟩ = true :=
  ⟨c2_sanity_filter_scope.2.2.1 2026 "a/2020-05-06.jpg"
      (⟨2020, 5, 6, 0, 0, 0⟩, "path:%Y-%m-%d") (by decide),
   c2_sanity_filter_scope.2.2.2 2026 .dby ["25".data, "Jan".data, "23".data]
      (⟨2023, 1, 25, 0, 0, 0⟩, "filename:DD-MMM-YY")
      (Or.inr (Or.inr (Or.inl rfl))) (by decide)⟩

/-! ### Claim C7 -/

/-- C7 counterexample: for `a/2020-05-06.jpg` the only directory component
is `a`, which yields no candidate, yet the path scanner produces candidates
— they come from the final filename component, which `Path.parts` includes,
refuting "and only on those (directory) components". -/
theorem c7_path_scanner_counterexample :
    extract_path_dates 2026 "a" = [] ∧
    extract_path_dates 2026 "a/2020-05-06.jpg" ≠ [] := by decide

/-- C7 amended: the Path Scanner runs the same catalogue/parser pipeline
independently on every component of `Path(file_path).parts` — which
includes the final filename component, not only directory components — and
every surviving candidate is tagged with `path:` provenance; a date
embedded in several components yields the concatenation of the independent
per-component scans. -/
theorem c7_path_scanner_amended :
    (∀ (cy : Nat) (p : String),
      extract_path_dates cy p =
        (pathParts p).flatMap (fun seg => scanText pathDispatch cy seg))
    ∧ (∀ (cy : Nat) (fp : String) (c : DT × String),
        c ∈ extract_path_dates cy fp → "path:".data.isPrefixOf c.2.data = true) := by
  constructor
  · intro cy p
    rfl
  · intro cy fp c h
    unfold extract_path_dates at h
    rw [List.mem_flatMap] at h
    obtain ⟨part, -, hp⟩ := h
    unfold scanText at hp
    rw [List.mem_flatMap] at hp
    obtain ⟨pe, -, hpe⟩ := hp
    rw [List.mem_flatMap] at hpe
    obtain ⟨gs, -, hgs⟩ := hpe
    exact pathDispatch_tag cy pe.2 gs c hgs

/-- C7 witness: the amended statement applied to the spec's path scenario. -/
theorem c7_path_scanner_amended_witness :
    "path:".data.isPrefixOf
      ((⟨2020, 1, 1, 0, 0, 0⟩, "path:YYYY (set to Jan 1st)") : DT × String).2.data = true :=
  c7_path_scanner_amended.2 2026 "/photos/2020-Summer/beach.jpg"
    (⟨2020, 1, 1, 0, 0, 0⟩, "path:YYYY (set to Jan 1st)") (by decide)

/-! ### Claim C8 -/

theorem mkDT_month13 (y d h mi s : Nat) : mkDT y 13 d h mi s = none := by
  unfold mkDT
  rw [if_neg]
  omega

/-- C8: the engine never aborts on bad input data: a metadata field whose
raw value fails to parse as a full timestamp contributes nothing and the
remaining fields are scanned exactly as if the field were absent; and a
pattern match that fails to form a valid calendar date (month 13) is
silently discarded as no candidate by both scanners.  (All scanners are
total functions into candidate lists by construction.) -/
theorem c8_no_fatal_errors :
    (∀ (cy : Nat) (ed : String → Option String) (f : String),
      (∀ raw, ed f = some raw → strptime fmtExif raw.data = none) →
      extract_exif_dates cy ed =
        extract_exif_dates cy (fun g => if g = f then none else ed g))
    ∧ (∀ (cy : Nat) (g1 g2 g3 g4 g5 g6 : List Char),
        strToNat? g2 = some 13 →
        filenameDispatch cy .ymd_hms [g1, g2, g3, g4, g5, g6] = [] ∧
        pathDispatch cy .ymd_hms [g1, g2, g3, g4, g5, g6] = []) := by
  constructor
  · intro cy ed f hf
    unfold extract_exif_dates
    apply flatMapCongr
    intro g _
    unfold exifFieldScan
    by_cases hg : g = f
    · subst hg
      cases hed : ed g with
      | none => simp [hed]
      | some raw =>
        have hr := hf raw hed
        by_cases hraw : raw = ""
        · simp [hed, hraw]
        · simp [hed, hraw, hr]
    · simp [hg]
  · intro cy g1 g2 g3 g4 g5 g6 h2
    refine ⟨?_, ?_⟩ <;>
      · simp only [filenameDispatch, pathDispatch, h2]
        cases strToNat? g1 <;> cases strToNat? g3 <;> cases strToNat? g4 <;>
          cases strToNat? g5 <;> cases strToNat? g6 <;>
          simp [mkDT_month13]

/-- C8 witness: a metadata mapping whose `DateTimeOriginal` raw value is
unparseable scans identically to one without the field, and a month-13
match yields no candidate. -/
theorem c8_no_fatal_errors_witness :
    extract_exif_dates 2026 (fun _ => some "not a timestamp") =
      extract_exif_dates 2026
        (fun g => if g = "DateTimeOriginal" then none
          else some "not a timestamp") ∧
    filenameDispatch 2026 .ymd_hms
      ["2024".data, "13".data, "05".data, "10".data, "20".data, "30".data] = [] :=
  ⟨c8_no_fatal_errors.1 2026 (fun _ => some "not a timestamp") "DateTimeOriginal"
      (fun raw h => by
        injection h with h
        subst h
        decide),
   (c8_no_fatal_errors.2 2026 "2024".data "13".data "05".data "10".data "20".data
      "30".data (by decide)).1⟩

/-! ### Claim C4 -/

/-- C4 counterexample: for the filename `03-04-2024` the scan emits FOUR
candidates under the two ambiguous interpretations, not exactly two — the
catalogue lists the same matcher twice (once declared `%d-%m-%Y`, once
`%m-%d-%Y`) and each occurrence's dispatch emits both interpretations. -/
theorem c4_ambiguous_counterexample :
    (extract_filename_dates 2026 "03-04-2024").countP
      (fun c => c.2 == "filename:DD-MM-YYYY" || c.2 == "filename:MM-DD-YYYY") = 4 := by
  decide

/-- C4 amended: the two ambiguous catalogue entries behave identically; for
one match of one entry, the dispatch emits one candidate per calendar-valid
interpretation — both (at the same tier score 60) when both parse, only the
valid one otherwise — so a full scan emits each such candidate once per
catalogue entry, i.e. twice; and for two candidates of equal score and
distinct instants the Resolver's winner is the chronologically earlier one
regardless of collection order. -/
theorem c4_ambiguous_amended :
    (∀ (cy : Nat) (gs : List (List Char)),
      filenameDispatch cy .dmY gs = filenameDispatch cy .mdY gs)
    ∧ (∀ (cy : Nat) (p0 p1 p2 : List Char) (d1 d2 : DT),
        strptime fmtDMY (p0 ++ '-' :: p1 ++ '-' :: p2) = some d1 →
        strptime fmtMDY (p0 ++ '-' :: p1 ++ '-' :: p2) = some d2 →
        filenameDispatch cy .dmY [p0, p1, p2] =
          [(d1, "filename:DD-MM-YYYY"), (d2, "filename:MM-DD-YYYY")] ∧
        get_date_precision_score "filename:DD-MM-YYYY" = 60 ∧
        get_date_precision_score "filename:MM-DD-YYYY" = 60)
    ∧ (∀ (cy : Nat) (p0 p1 p2 : List Char) (d1 : DT),
        strptime fmtDMY (p0 ++ '-' :: p1 ++ '-' :: p2) = some d1 →
        strptime fmtMDY (p0 ++ '-' :: p1 ++ '-' :: p2) = none →
        filenameDispatch cy .dmY [p0, p1, p2] = [(d1, "filename:DD-MM-YYYY")])
    ∧ (∀ a b : DT × String,
        get_date_precision_score a.2 = get_date_precision_score b.2 →
        b.1 ≠ a.1 → DT.leP b.1 a.1 →
        (get_best_from [a, b]).1 = some b) := by
  refine ⟨?_, ?_, ?_, ?_⟩
  · intro cy gs
    rfl
  · intro cy p0 p1 p2 d1 d2 h1 h2
    refine ⟨?_, by decide, by decide⟩
    simp only [filenameDispatch, h1, h2]
    rfl
  · intro cy p0 p1 p2 d1 h1 h2
    simp only [filenameDispatch, h1, h2]
    rfl
  · intro a b hs hne hle
    obtain ⟨a1, a2⟩ := a
    obtain ⟨b1, b2⟩ := b
    have hne2 : b1 ≠ a1 := hne
    have hle2 : DT.leP b1 a1 := hle
    have hs2 : get_date_precision_score a2 = get_date_precision_score b2 := hs
    have hab : rankLE (a1, a2) (b1, b2) = false := by
      simp only [rankLE, decide_eq_false_iff_not]
      rintro (h | ⟨h, hl⟩)
      · have h2 : get_date_precision_score b2 < get_date_precision_score a2 := h
        omega
      · exact hne2 (DT.leP_antisymm _ _ hle2 hl)
    have hdedup : dedup [(a1, a2), (b1, b2)] = [(a1, a2), (b1, b2)] := by
      simp [dedup, dedupAux, hne2]
    rw [get_best_from_eq, hdedup]
    simp [sortRank, insertRank, hab]

/-- C4 witness: the amended statement at `03-04-2024` — one entry's match
emits both interpretations at score 60, and the Resolver picks the
chronologically earlier instant (2024-03-04) as winner even though it was
collected second. -/
theorem c4_ambiguous_amended_witness :
    filenameDispatch 2026 .dmY ["03".data, "04".data, "2024".data] =
      [(⟨2024, 4, 3, 0, 0, 0⟩, "filename:DD-MM-YYYY"),
       (⟨2024, 3, 4, 0, 0, 0⟩, "filename:MM-DD-YYYY")] ∧
    (get_best_from [(⟨2024, 4, 3, 0, 0, 0⟩, "filename:DD-MM-YYYY"),
        (⟨2024, 3, 4, 0, 0, 0⟩, "filename:MM-DD-YYYY")]).1 =
      some (⟨2024, 3, 4, 0, 0, 0⟩, "filename:MM-DD-YYYY") :=
  ⟨(c4_ambiguous_amended.2.1 2026 "03".data "04".data "2024".data
      ⟨2024, 4, 3, 0, 0, 0⟩ ⟨2024, 3, 4, 0, 0, 0⟩ (by decide) (by decide)).1,
   c4_ambiguous_amended.2.2.2
      (⟨2024, 4, 3, 0, 0, 0⟩, "filename:DD-MM-YYYY")
      (⟨2024, 3, 4, 0, 0, 0⟩, "filename:MM-DD-YYYY")
      (by decide) (by decide) (by decide)⟩

/-! ### Claim C10 -/

theorem isDig_bounds {c : Char} (h : isDig c = true) : 48 ≤ c.toNat ∧ c.toNat ≤ 57 :=
  of_decide_eq_true h

theorem alpha_not_dig {c : Char} (h : isAlphaChar c = true) : isDig c = false := by
  have hb : (65 ≤ c.toNat ∧ c.toNat ≤ 90) ∨ (97 ≤ c.toNat ∧ c.toNat ≤ 122) :=
    of_decide_eq_true h
  cases hd : isDig c with
  | false => rfl
  | true =>
    have := isDig_bounds hd
    omega

theorem not_isDig_ne {c d : Char} (hc : isDig c = false) (hd : isDig d = true) :
    c ≠ d := by
  intro he
  rw [he, hd] at hc
  simp at hc

theorem lowerC_digit {c : Char} (h : isDig c = true) : lowerC c = c := by
  have hb := isDig_bounds h
  unfold lowerC
  rw [if_neg (by omega)]

theorem monthNum3_digit (c1 c2 c3 : Char) (h : isDig c1 = true) :
    monthNum3 c1 c2 c3 = none := by
  have hb := isDig_bounds h
  have hl := lowerC_digit h
  unfold monthNum3
  rw [hl]
  repeat rw [if_neg (fun hx => absurd (hx.1 ▸ hb) (by decide))]

theorem spMatch_lit_cons (c : Char) (ts : List STok) (rest : List Char) :
    spMatch (.lit c :: ts) (c :: rest) = spMatch ts rest := by
  simp [spMatch]

theorem spMatch_lit_ne (c c2 : Char) (h : c2 ≠ c) (ts : List STok) (rest : List Char) :
    spMatch (.lit c :: ts) (c2 :: rest) = none := by
  simp [spMatch, h]

theorem spMatch_dD (ts : List STok) (cs : List Char) :
    spMatch (.dD :: ts) cs = (dAlts .dD cs).findSome? (fun vr =>
      match spMatch ts vr.2 with
      | some (vs, r) => some ((STok.dD, vr.1) :: vs, r)
      | none => none) := rfl

theorem spMatch_dB (ts : List STok) (cs : List Char) :
    spMatch (.dB :: ts) cs = (dAlts .dB cs).findSome? (fun vr =>
      match spMatch ts vr.2 with
      | some (vs, r) => some ((STok.dB, vr.1) :: vs, r)
      | none => none) := rfl

theorem spMatch_dY2 (ts : List STok) (cs : List Char) :
    spMatch (.dY2 :: ts) cs = (dAlts .dY2 cs).findSome? (fun vr =>
      match spMatch ts vr.2 with
      | some (vs, r) => some ((STok.dY2, vr.1) :: vs, r)
      | none => none) := rfl

theorem dB_shape (cs : List Char) :
    dAlts .dB cs = [] ∨ ∃ m, dAlts .dB cs = [(m, cs.drop 3)] := by
  match cs with
  | [] => exact Or.inl rfl
  | [c1] => exact Or.inl rfl
  | [c1, c2] => exact Or.inl rfl
  | c1 :: c2 :: c3 :: rest =>
    cases h : monthNum3 c1 c2 c3 with
    | none =>
      refine Or.inl ?_
      simp [dAlts, h]
    | some m =>
      refine Or.inr ⟨m, ?_⟩
      simp [dAlts, h]

theorem dB_digit_head (c : Char) (h : isDig c = true) (cs : List Char) :
    dAlts .dB (c :: cs) = [] := by
  match cs with
  | [] => rfl
  | [c2] => rfl
  | c2 :: c3 :: rest =>
    simp [dAlts, monthNum3_digit c c2 c3 h]

theorem dY2_mem (y : List Char) (vr : Nat × List Char) (h : vr ∈ dAlts .dY2 y) :
    y.length = vr.2.length + 2 := by
  match y with
  | [] => simp [dAlts] at h
  | [a] => simp [dAlts] at h
  | a :: b :: r =>
    simp only [dAlts] at h
    split at h
    · rw [List.mem_singleton] at h
      subst h
      simp
    · simp at h

theorem spMatch_y2_tail (y : List Char) (hy : 3 ≤ y.length) :
    ∀ res, spMatch [STok.dY2] y = some res → res.2 ≠ [] := by
  rw [spMatch_dY2]
  refine findSome?_all ?_
  intro vr hvr b hb
  have hlen := dY2_mem y vr hvr
  simp only [spMatch] at hb
  rw [Option.some.injEq] at hb
  subst hb
  intro hnil
  simp only at hnil
  rw [hnil] at hlen
  simp at hlen
  omega

theorem dD_alts_one (e1 : Char) (t : List Char) (h1 : isDig e1 = true)
    (ht : ∀ c t2, t = c :: t2 → isDig c = false) :
    ∀ vr ∈ dAlts .dD (e1 :: t), vr.2 = t := by
  intro vr hvr
  have he1 : e1 ≠ ' ' := (not_isDig_ne (by decide) h1).symm
  cases t with
  | nil =>
    have h0 : dAlts .dD [e1] =
        (if isDig e1 ∧ e1 ≠ '0' then [(dv e1, ([] : List Char))] else []) := by
      simp [dAlts]
    rw [h0] at hvr
    split at hvr
    · rw [List.mem_singleton] at hvr
      subst hvr
      rfl
    · simp at hvr
  | cons c t2 =>
    have hc : isDig c = false := ht c t2 rfl
    have hc0 : c ≠ '0' := not_isDig_ne hc (by decide)
    have hc1 : c ≠ '1' := not_isDig_ne hc (by decide)
    simp only [dAlts, List.mem_append] at hvr
    rcases hvr with ((((hv | hv) | hv) | hv) | hv)
    · split at hv
      · rename_i hcond
        rcases hcond.2 with h | h
        · exact absurd h hc0
        · exact absurd h hc1
      · simp at hv
    · split at hv
      · rename_i hcond
        exact absurd hcond.2 (by simp [hc])
      · simp at hv
    · split at hv
      · rename_i hcond
        exact absurd hcond.2.1 (by simp [hc])
      · simp at hv
    · split at hv
      · rw [List.mem_singleton] at hv
        subst hv
        rfl
      · simp at hv
    · split at hv
      · rename_i hcond
        exact absurd hcond.1 he1
      · simp at hv

theorem dD_alts_two (e1 e2 : Char) (t : List Char) (h1 : isDig e1 = true)
    (_h2 : isDig e2 = true) :
    ∀ vr ∈ dAlts .dD (e1 :: e2 :: t), vr.2 = t ∨ vr.2 = e2 :: t := by
  intro vr hvr
  have he1 : e1 ≠ ' ' := (not_isDig_ne (by decide) h1).symm
  simp only [dAlts, List.mem_append] at hvr
  rcases hvr with ((((hv | hv) | hv) | hv) | hv)
  · split at hv
    · rw [List.mem_singleton] at hv
      subst hv
      exact Or.inl rfl
    · simp at hv
  · split at hv
    · rw [List.mem_singleton] at hv
      subst hv
      exact Or.inl rfl
    · simp at hv
  · split at hv
    · rw [List.mem_singleton] at hv
      subst hv
      exact Or.inl rfl
    · simp at hv
  · split at hv
    · rw [List.mem_singleton] at hv
      subst hv
      exact Or.inr rfl
    · simp at hv
  · split at hv
    · rename_i hcond
      exact absurd hcond.1 he1
    · simp at hv

theorem spMatch_dD_litY2_tail (d y : List Char)
    (hdd : d.all isDig = true) (hd1 : 1 ≤ d.length) (hd2 : d.length ≤ 2)
    (hy : 3 ≤ y.length) :
    ∀ res, spMatch [STok.dD, .lit '-', .dY2] (d ++ '-' :: y) = some res →
      res.2 ≠ [] := by
  rw [spMatch_dD]
  refine findSome?_all ?_
  intro vr hvr b hb
  have hrest : vr.2 = '-' :: y ∨ ∃ e2, isDig e2 = true ∧ vr.2 = e2 :: '-' :: y := by
    have h1len : d.length = 1 ∨ d.length = 2 := by omega
    rcases h1len with h1len | h1len
    · obtain ⟨e1, rfl⟩ := List.length_eq_one.mp h1len
      have he1 : isDig e1 = true := by simpa using hdd
      refine Or.inl (dD_alts_one e1 ('-' :: y) he1 ?_ vr hvr)
      intro c t2 he
      injection he with hc _
      rw [← hc]
      decide
    · obtain ⟨e1, e2, rfl⟩ := List.length_eq_two.mp h1len
      have he12 : isDig e1 = true ∧ isDig e2 = true := by simpa using hdd
      rcases dD_alts_two e1 e2 ('-' :: y) he12.1 he12.2 vr hvr with h | h
      · exact Or.inl h
      · exact Or.inr ⟨e2, he12.2, h⟩
  rcases hrest with hrest | ⟨e2, he2, hrest⟩
  · rw [hrest, spMatch_lit_cons] at hb
    cases hsp : spMatch [STok.dY2] y with
    | none =>
      rw [hsp] at hb
      simp at hb
    | some res2 =>
      rw [hsp] at hb
      obtain ⟨vs2, r2⟩ := res2
      rw [Option.some.injEq] at hb
      subst hb
      have := spMatch_y2_tail y hy (vs2, r2) hsp
      simpa using this
  · rw [hrest, spMatch_lit_ne '-' e2 (not_isDig_ne (by decide) he2).symm] at hb
    simp at hb

theorem strptime_bdy_long_year (b1 b2 b3 : Char) (d y : List Char)
    (hdd : d.all isDig = true) (hd1 : 1 ≤ d.length) (hd2 : d.length ≤ 2)
    (hy : 3 ≤ y.length) :
    strptime fmtBDY ([b1, b2, b3] ++ '-' :: d ++ '-' :: y) = none := by
  unfold strptime
  cases hsp : spMatch fmtBDY ([b1, b2, b3] ++ '-' :: d ++ '-' :: y) with
  | none => rfl
  | some res =>
    obtain ⟨vs, r⟩ := res
    have step : ∀ res2, spMatch fmtBDY ([b1, b2, b3] ++ '-' :: d ++ '-' :: y) =
        some res2 → res2.2 ≠ [] := by
      unfold fmtBDY
      rw [spMatch_dB]
      refine findSome?_all ?_
      intro vr hvr bb hbb
      rcases dB_shape ([b1, b2, b3] ++ '-' :: d ++ '-' :: y) with hB | ⟨m, hB⟩
      · rw [hB] at hvr
        simp at hvr
      · rw [hB] at hvr
        rw [List.mem_singleton] at hvr
        subst hvr
        replace hbb : (match spMatch [STok.lit '-', STok.dD, STok.lit '-', STok.dY2]
            ('-' :: (d ++ '-' :: y)) with
          | some (vs, r) => some ((STok.dB, m) :: vs, r)
          | none => none) = some bb := hbb
        rw [spMatch_lit_cons] at hbb
        cases hsp2 : spMatch [STok.dD, .lit '-', .dY2] (d ++ '-' :: y) with
        | none =>
          rw [hsp2] at hbb
          simp at hbb
        | some res3 =>
          rw [hsp2] at hbb
          obtain ⟨vs3, r3⟩ := res3
          rw [Option.some.injEq] at hbb
          subst hbb
          have := spMatch_dD_litY2_tail d y hdd hd1 hd2 hy (vs3, r3) hsp2
          simpa using this
    have hrne : r ≠ [] := step (vs, r) hsp
    cases r with
    | nil => exact absurd rfl hrne
    | cons c cs => rfl

theorem spMatch_dB_Y2_tail (b1 b2 b3 : Char) (y : List Char) (hy : 3 ≤ y.length) :
    ∀ res, spMatch [STok.dB, .dY2] ([b1, b2, b3] ++ y) = some res → res.2 ≠ [] := by
  rw [spMatch_dB]
  refine findSome?_all ?_
  intro vr hvr bb hbb
  rcases dB_shape ([b1, b2, b3] ++ y) with hB | ⟨m, hB⟩
  · rw [hB] at hvr
    simp at hvr
  · rw [hB] at hvr
    rw [List.mem_singleton] at hvr
    subst hvr
    replace hbb : (match spMatch [STok.dY2] y with
      | some (vs, r) => some ((STok.dB, m) :: vs, r)
      | none => none) = some bb := hbb
    cases hsp : spMatch [STok.dY2] y with
    | none =>
      rw [hsp] at hbb
      simp at hbb
    | some res2 =>
      rw [hsp] at hbb
      obtain ⟨vs2, r2⟩ := res2
      rw [Option.some.injEq] at hbb
      subst hbb
      have := spMatch_y2_tail y hy (vs2, r2) hsp
      simpa using this

theorem strptime_dby_long_year (b1 b2 b3 : Char) (d y : List Char)
    (hb1 : isAlphaChar b1 = true)
    (hdd : d.all isDig = true) (hd1 : 1 ≤ d.length) (hd2 : d.length ≤ 2)
    (hy : 3 ≤ y.length) :
    strptime fmtDBY ((d ++ [b1, b2, b3]) ++ y) = none := by
  rw [List.append_assoc]
  unfold strptime
  cases hsp : spMatch fmtDBY (d ++ ([b1, b2, b3] ++ y)) with
  | none => rfl
  | some res =>
    obtain ⟨vs, r⟩ := res
    have step : ∀ res2, spMatch fmtDBY (d ++ ([b1, b2, b3] ++ y)) = some res2 →
        res2.2 ≠ [] := by
      unfold fmtDBY
      rw [spMatch_dD]
      refine findSome?_all ?_
      intro vr hvr bb hbb
      have hrest : vr.2 = [b1, b2, b3] ++ y ∨
          ∃ e2, isDig e2 = true ∧ vr.2 = e2 :: ([b1, b2, b3] ++ y) := by
        have h1len : d.length = 1 ∨ d.length = 2 := by omega
        rcases h1len with h1len | h1len
        · obtain ⟨e1, rfl⟩ := List.length_eq_one.mp h1len
          have he1 : isDig e1 = true := by simpa using hdd
          refine Or.inl (dD_alts_one e1 ([b1, b2, b3] ++ y) he1 ?_ vr hvr)
          intro c t2 he
          injection he with hc _
          rw [← hc]
          exact alpha_not_dig hb1
        · obtain ⟨e1, e2, rfl⟩ := List.length_eq_two.mp h1len
          have he12 : isDig e1 = true ∧ isDig e2 = true := by simpa using hdd
          rcases dD_alts_two e1 e2 ([b1, b2, b3] ++ y) he12.1 he12.2 vr hvr with h | h
          · exact Or.inl h
          · exact Or.inr ⟨e2, he12.2, h⟩
      rcases hrest with hrest | ⟨e2, he2, hrest⟩
      · rw [hrest] at hbb
        cases hsp2 : spMatch [STok.dB, .dY2] ([b1, b2, b3] ++ y) with
        | none =>
          rw [hsp2] at hbb
          simp at hbb
        | some res3 =>
          rw [hsp2] at hbb
          obtain ⟨vs3, r3⟩ := res3
          rw [Option.some.injEq] at hbb
          subst hbb
          have := spMatch_dB_Y2_tail b1 b2 b3 y hy (vs3, r3) hsp2
          simpa using this
      · rw [hrest, spMatch_dB, dB_digit_head e2 he2 _] at hbb
        simp at hbb
    have hrne : r ≠ [] := step (vs, r) hsp
    cases r with
    | nil => exact absurd rfl hrne
    | cons c cs => rfl

/-- C10: although the month-abbreviation matchers accept a 2-to-4-digit
year group, an occurrence whose year group has three or four digits yields
no month-abbreviation candidate from any of the three shapes, in either
scanner: construction always parses through the two-digit-year `%y`
directive, which consumes exactly two digits, leaving unconverted data.
Only two-digit-year occurrences can produce candidates from these shapes. -/
theorem c10_month_abbrev_year4 :
    ∀ (cy : Nat) (d b y : List Char),
      d.all isDig = true → 1 ≤ d.length → d.length ≤ 2 →
      b.length = 3 → (∀ c ∈ b, isAlphaChar c = true) →
      3 ≤ y.length →
      filenameDispatch cy .dby [d, b, y] = [] ∧
      filenameDispatch cy .bdy [b, d, y] = [] ∧
      filenameDispatch cy .ybd [y, b, d] = [] ∧
      pathDispatch cy .dby [d, b, y] = [] ∧
      pathDispatch cy .bdy [b, d, y] = [] ∧
      pathDispatch cy .ybd [y, b, d] = [] := by
  intro cy d b y hdd hd1 hd2 hb hba hy
  obtain ⟨b1, b2, b3, rfl⟩ := List.length_eq_three.mp hb
  have hb1 : isAlphaChar b1 = true := hba b1 (by simp)
  have h1 : strptime fmtDBY ((d ++ [b1, b2, b3]) ++ y) = none :=
    strptime_dby_long_year b1 b2 b3 d y hb1 hdd hd1 hd2 hy
  have h2 : strptime fmtBDY ([b1, b2, b3] ++ '-' :: d ++ '-' :: y) = none :=
    strptime_bdy_long_year b1 b2 b3 d y hdd hd1 hd2 hy
  refine ⟨?_, ?_, ?_, ?_, ?_, ?_⟩ <;>
    · simp only [filenameDispatch, pathDispatch]
      first
        | rw [h1]
        | rw [h2]

/-- C10 witness: the claim's own examples `25Jan2023` (groups 25/Jan/2023)
and `Jan-25-2023` yield no candidate from the month-abbreviation shapes. -/
theorem c10_month_abbrev_year4_witness :
    filenameDispatch 2026 .dby ["25".data, "Jan".data, "2023".data] = [] ∧
    filenameDispatch 2026 .bdy ["Jan".data, "25".data, "2023".data] = [] := by
  have h := c10_month_abbrev_year4 2026 "25".data "Jan".data "2023".data
    (by decide) (by decide) (by decide) (by decide) (by decide) (by decide)
  exact ⟨h.1, h.2.1⟩

end Exfix
